import Mathlib

/-!
Verification of the resumable captioning engine
(`client_caption_arkive.py` / `client_caption_wavscp.py`).

The Python sources are shallowly embedded: the ledger-replay bookkeeping,
residual work-set computation, throughput tracker, rate limiter, shard
store resource handling, index builder and TSV projection are translated
into executable Lean definitions, and the spec's claims are settled as
theorems about those definitions.
-/

namespace Captioner

/-! ### Ledger entries and resume state

`load_done_and_retry_info` (client_caption_arkive.py, lines 230-249) parses
each line of the output JSONL with `json.loads` inside a `try`/`except`
that silently skips unparseable lines.  A raw ledger line is embedded as
`Option Entry`: `some e` when the line parses, `none` when the `try` block
raises.  `obj.get("idx")`, `obj.get("status")` and `obj.get("retry_attempt")`
may each be absent, hence the `Option` fields. -/

structure Entry where
  idx : Option Int
  status : Option String
  retry_attempt : Option Int
deriving DecidableEq

/-- The field `done` is a Python `set` (membership is all that is observed);
`retry` models the `retry_counts` dict: every read in the source is a
`get` with default `0`, so the dict is embedded as a total function and
`pop` as resetting the key to `0`. -/
structure ResumeState where
  done : List (Option Int)
  retry : Option Int → Int

def emptyResume : ResumeState := ⟨[], fun _ => 0⟩

/-- Point update of the retry table. -/
def updFn (f : Option Int → Int) (k : Option Int) (v : Int) : Option Int → Int :=
  fun k2 => if k2 = k then v else f k2

/-- Set insertion: `done.add(idx)`. -/
def setAdd (s : List (Option Int)) (x : Option Int) : List (Option Int) :=
  if x ∈ s then s else x :: s

/-- One iteration of the replay loop in `load_done_and_retry_info`
(client_caption_arkive.py lines 238-248):
`status == "ok"` adds the id to `done` and pops its retry count;
`status == "fail"` sets the retry count to the entry's declared
`retry_attempt`, falling back to previous count + 1 when absent;
an unparseable line (`none`) is skipped by the `except` handler. -/
def replayStep (st : ResumeState) (line : Option Entry) : ResumeState :=
  match line with
  | none => st
  | some obj =>
    if obj.status = some "ok" then
      { done := setAdd st.done obj.idx,
        retry := updFn st.retry obj.idx 0 }
    else if obj.status = some "fail" then
      { st with
        retry := updFn st.retry obj.idx
          (obj.retry_attempt.getD (st.retry obj.idx + 1)) }
    else st

/-- Function `load_done_and_retry_info`: full linear scan of the ledger, oldest
line first (client_caption_arkive.py lines 230-249). -/
def load_done_and_retry_info (lines : List (Option Entry)) : ResumeState :=
  lines.foldl replayStep emptyResume

/-- Warnings printed while replaying one ledger line.  In the source the
malformed-line handler is `except Exception: pass` and neither parsed
branch prints, so every line contributes no warning. -/
def replayStepWarnings (line : Option Entry) : List String :=
  match line with
  | none => []
  | some _ => []

/-- All warnings printed during a full replay. -/
def load_warnings (lines : List (Option Entry)) : List String :=
  (lines.map replayStepWarnings).flatten

/-- The ledger file may be absent: `if not os.path.exists(out_jsonl):
return done, retry_counts` returns the empty state
(client_caption_arkive.py lines 234-235). -/
def loadFromFile (file : Option (List (Option Entry))) : ResumeState :=
  match file with
  | none => emptyResume
  | some lines => load_done_and_retry_info lines

/-- Running `main` without `--resume` uses `(set(), defaultdict(int))`
(client_caption_arkive.py line 352). -/
def resumeStateOf (resume : Bool) (file : Option (List (Option Entry))) : ResumeState :=
  if resume then loadFromFile file else emptyResume

/-- Embedding of `list(range(start_idx, end_idx))` over `Int` endpoints. -/
def intRange (s e : Int) : List Int :=
  (List.range (e - s).toNat).map (fun i => s + i)

/-- The residual-work filter of `main` (client_caption_arkive.py lines
355-363): keep `idx` unless `idx in done` or
`retry_counts.get(idx, 0) >= args.max_retries`. -/
def residualWork (s e maxRetries : Int) (st : ResumeState) : List Int :=
  (intRange s e).filter
    (fun idx => !(decide ((some idx) ∈ st.done)) &&
                !(decide (st.retry (some idx) ≥ maxRetries)))

/-! ### Generic replay lemmas -/

/-- Replay never removes an id from `done`. -/
theorem replayStep_done_mono (st : ResumeState) (line : Option Entry)
    (x : Option Int) (hx : x ∈ st.done) : x ∈ (replayStep st line).done := by
  cases line with
  | none => exact hx
  | some obj =>
    simp only [replayStep]
    split
    · simp only [setAdd]
      split
      · exact hx
      · exact List.mem_cons_of_mem _ hx
    · split
      · exact hx
      · exact hx

theorem foldl_replay_done_mono (lines : List (Option Entry)) (st : ResumeState)
    (x : Option Int) (hx : x ∈ st.done) :
    x ∈ (lines.foldl replayStep st).done := by
  induction lines generalizing st with
  | nil => exact hx
  | cons l rest ih =>
    exact ih (replayStep st l) (replayStep_done_mono st l x hx)

/-- Replaying an `ok` entry takes the first branch. -/
theorem replayStep_ok (st : ResumeState) (e : Entry) (hst : e.status = some "ok") :
    replayStep st (some e) =
      { done := setAdd st.done e.idx, retry := updFn st.retry e.idx 0 } := by
  simp [replayStep, hst]

/-- The id just added is in `done`. -/
theorem mem_setAdd (s : List (Option Int)) (x : Option Int) : x ∈ setAdd s x := by
  unfold setAdd
  split
  · assumption
  · exact List.mem_cons_self _ _

/-- After replaying a list that contains an `ok` entry for `x`, the id `x`
is in `done`. -/
theorem ok_entry_in_done (lines : List (Option Entry)) (st : ResumeState)
    (e : Entry) (he : (some e) ∈ lines) (hst : e.status = some "ok") :
    e.idx ∈ (lines.foldl replayStep st).done := by
  induction lines generalizing st with
  | nil => cases he
  | cons l rest ih =>
    rcases List.mem_cons.mp he with h | h
    · subst h
      rw [List.foldl_cons]
      apply foldl_replay_done_mono
      rw [replayStep_ok st e hst]
      exact mem_setAdd _ _
    · exact ih (replayStep st l) h

/-! ### Retry-count bookkeeping lemmas -/

theorem updFn_same (f : Option Int → Int) (k : Option Int) (v : Int) :
    updFn f k v k = v := by
  simp [updFn]

theorem updFn_other (f : Option Int → Int) (k k2 : Option Int) (v : Int)
    (h : k2 ≠ k) : updFn f k v k2 = f k2 := by
  simp [updFn, h]

/-- Number of parsed `fail` entries for id `Y` in a ledger. -/
def countFailFor (Y : Int) (lines : List (Option Entry)) : Nat :=
  (lines.filterMap id).countP
    (fun ent => decide (ent.idx = some Y) && decide (ent.status = some "fail"))

/-- When no entry for `Y` is an `ok` entry and every `fail` entry for `Y`
omits `retry_attempt`, replay increments the retry count for `Y` once per
`fail` entry for `Y` and touches it in no other way. -/
theorem retry_eq_countFail (lines : List (Option Entry)) (st : ResumeState) (Y : Int)
    (h1 : ∀ ent : Entry, (some ent) ∈ lines → ent.idx = some Y →
      ent.status ≠ some "ok" ∧ (ent.status = some "fail" → ent.retry_attempt = none)) :
    (lines.foldl replayStep st).retry (some Y) =
      st.retry (some Y) + (countFailFor Y lines : Int) := by
  induction lines generalizing st with
  | nil => simp [countFailFor]
  | cons l rest ih =>
    have h1rest : ∀ ent : Entry, (some ent) ∈ rest → ent.idx = some Y →
        ent.status ≠ some "ok" ∧ (ent.status = some "fail" → ent.retry_attempt = none) :=
      fun ent hm => h1 ent (List.mem_cons_of_mem _ hm)
    cases l with
    | none =>
      rw [List.foldl_cons]
      show (rest.foldl replayStep st).retry (some Y) = _
      rw [ih st h1rest]
      simp [countFailFor]
    | some ent =>
      rw [List.foldl_cons, ih _ h1rest]
      by_cases hidx : ent.idx = some Y
      · obtain ⟨hnok, hfa⟩ := h1 ent (List.mem_cons_self _ _) hidx
        by_cases hfail : ent.status = some "fail"
        · have hra := hfa hfail
          have hstep : (replayStep st (some ent)).retry (some Y) =
              st.retry (some Y) + 1 := by
            simp only [replayStep, if_neg hnok, if_pos hfail]
            rw [hidx, hra]
            simpa using updFn_same st.retry (some Y) (st.retry (some Y) + 1)
          rw [hstep]
          have hcount : countFailFor Y (some ent :: rest) = countFailFor Y rest + 1 := by
            simp [countFailFor, hidx, hfail]
          rw [hcount]
          push_cast
          ring
        · have hstep : (replayStep st (some ent)).retry (some Y) = st.retry (some Y) := by
            simp only [replayStep, if_neg hnok, if_neg hfail]
          rw [hstep]
          have hcount : countFailFor Y (some ent :: rest) = countFailFor Y rest := by
            simp [countFailFor, hfail]
          rw [hcount]
      · have hcount : countFailFor Y (some ent :: rest) = countFailFor Y rest := by
          simp [countFailFor, hidx]
        rw [hcount]
        have hne : (some Y : Option Int) ≠ ent.idx := fun h => hidx h.symm
        have hstep : (replayStep st (some ent)).retry (some Y) = st.retry (some Y) := by
          by_cases hok : ent.status = some "ok"
          · rw [replayStep_ok st ent hok]
            exact updFn_other _ _ _ _ hne
          · by_cases hfail : ent.status = some "fail"
            · simp only [replayStep, if_neg hok, if_pos hfail]
              exact updFn_other _ _ _ _ hne
            · simp only [replayStep, if_neg hok, if_neg hfail]
        rw [hstep]

/-! ### C1 -/

/-- C1: Idempotent resume.  For every ledger containing an `ok` entry for
id `X`, replaying the ledger and computing the residual work set for any
range `[s, e)` excludes `X`, regardless of any `fail` entries for `X`
elsewhere in the ledger. -/
theorem C1_resume_idempotent (lines : List (Option Entry)) (s e maxRetries X : Int)
    (h : ∃ ent : Entry, (some ent) ∈ lines ∧ ent.idx = some X ∧ ent.status = some "ok") :
    X ∉ residualWork s e maxRetries (load_done_and_retry_info lines) := by
  obtain ⟨ent, hmem, hidx, hok⟩ := h
  intro hX
  have hdone : (some X) ∈ (load_done_and_retry_info lines).done := by
    have := ok_entry_in_done lines emptyResume ent hmem hok
    rwa [hidx] at this
  have := List.mem_filter.mp hX
  simp only [Bool.and_eq_true, Bool.not_eq_true', decide_eq_false_iff_not] at this
  exact this.2.1 hdone

theorem C1_resume_idempotent_witness :
    (∃ ent : Entry, (some ent) ∈
        ([some ⟨some 5, some "fail", some 1⟩,
          some ⟨some 5, some "ok", none⟩,
          some ⟨some 5, some "fail", some 2⟩] : List (Option Entry)) ∧
      ent.idx = some 5 ∧ ent.status = some "ok") ∧
    (5 : Int) ∉ residualWork 0 10 3 (load_done_and_retry_info
        [some ⟨some 5, some "fail", some 1⟩,
         some ⟨some 5, some "ok", none⟩,
         some ⟨some 5, some "fail", some 2⟩]) := by
  refine ⟨⟨⟨some 5, some "ok", none⟩, by decide, rfl, rfl⟩, ?_⟩
  exact C1_resume_idempotent _ 0 10 3 5 ⟨⟨some 5, some "ok", none⟩, by decide, rfl, rfl⟩

/-! ### C2 -/

/-- C2 counterexample: a ledger with two `fail` entries for id 7 and no
`ok` entry, where the later entry declares `retry_attempt = 1`.  Replay
sets the retry count to the declared attempt number of the *last* `fail`
entry, so with `max_retries = 2` the id 7 is still in the residual work
set, contradicting the claim. -/
theorem C2_counterexample :
    (countFailFor 7 [some ⟨some 7, some "fail", some 2⟩,
                     some ⟨some 7, some "fail", some 1⟩] = 2) ∧
    (([some ⟨some 7, some "fail", some 2⟩,
       some ⟨some 7, some "fail", some 1⟩] : List (Option Entry)).filterMap id).countP
      (fun ent => decide (ent.idx = some 7) && decide (ent.status = some "ok")) = 0 ∧
    (7 : Int) ∈ residualWork 0 10 2 (load_done_and_retry_info
        [some ⟨some 7, some "fail", some 2⟩,
         some ⟨some 7, some "fail", some 1⟩]) := by
  refine ⟨by decide, by decide, ?_⟩
  decide

/-- C2 (amended): if a ledger contains at least `k` `fail` entries for id
`Y`, none of which declares a `retry_attempt` field, and no `ok` entry for
`Y`, then with `max_retries = k` the residual work set after replay
excludes `Y` for every range.  (As stated the claim fails: a `fail` entry
that declares a `retry_attempt` overwrites the accumulated count with that
declared number, so a later entry declaring a small attempt number can
drop the count below `k`.) -/
theorem C2_retry_bound (lines : List (Option Entry)) (s e Y : Int) (k : Int)
    (h1 : ∀ ent : Entry, (some ent) ∈ lines → ent.idx = some Y →
      ent.status ≠ some "ok" ∧ (ent.status = some "fail" → ent.retry_attempt = none))
    (h2 : k ≤ (countFailFor Y lines : Int)) :
    Y ∉ residualWork s e k (load_done_and_retry_info lines) := by
  intro hY
  have hretry : (load_done_and_retry_info lines).retry (some Y) = (countFailFor Y lines : Int) := by
    have := retry_eq_countFail lines emptyResume Y h1
    simpa [emptyResume] using this
  have := List.mem_filter.mp hY
  simp only [Bool.and_eq_true, Bool.not_eq_true', decide_eq_false_iff_not] at this
  exact this.2.2 (by rw [hretry]; exact h2)

theorem C2_retry_bound_witness :
    (∀ ent : Entry, (some ent) ∈
        ([some ⟨some 3, some "fail", none⟩,
          some ⟨some 3, some "fail", none⟩] : List (Option Entry)) →
      ent.idx = some 3 →
      ent.status ≠ some "ok" ∧ (ent.status = some "fail" → ent.retry_attempt = none)) ∧
    ((2 : Int) ≤ (countFailFor 3 [some ⟨some 3, some "fail", none⟩,
                                  some ⟨some 3, some "fail", none⟩] : Int)) ∧
    (3 : Int) ∉ residualWork 0 5 2 (load_done_and_retry_info
        [some ⟨some 3, some "fail", none⟩, some ⟨some 3, some "fail", none⟩]) := by
  have h1 : ∀ ent : Entry, (some ent) ∈
      ([some ⟨some 3, some "fail", none⟩,
        some ⟨some 3, some "fail", none⟩] : List (Option Entry)) →
      ent.idx = some 3 →
      ent.status ≠ some "ok" ∧ (ent.status = some "fail" → ent.retry_attempt = none) := by
    intro ent hm _
    rcases List.mem_cons.mp hm with h | h
    · cases Option.some.inj h; exact ⟨by decide, fun _ => rfl⟩
    · rcases List.mem_cons.mp h with h | h
      · cases Option.some.inj h; exact ⟨by decide, fun _ => rfl⟩
      · cases h
  exact ⟨h1, by decide, C2_retry_bound _ 0 5 3 2 h1 (by decide)⟩

/-! ### C3 -/

/-- C3 counterexample: a ledger with one malformed line between two valid
lines.  Replay emits no warning at all (the handler is
`except Exception: pass`), so the claim's "skipped with a warning" part is
false: the number of warnings is 0, not 1. -/
theorem C3_counterexample :
    ¬ (1 ≤ (load_warnings [some ⟨some 5, some "ok", none⟩, none,
                           some ⟨some 6, some "ok", none⟩]).length) ∧
    ([some ⟨some 5, some "ok", none⟩, none,
      some ⟨some 6, some "ok", none⟩] : List (Option Entry)).countP
        (fun l => decide (l = none)) = 1 := by
  refine ⟨?_, by decide⟩
  decide

/-- C3 (amended): replay of a ledger with malformed lines never aborts and
produces exactly the `ResumeState` that replaying only the valid lines in
the same order would produce; the malformed lines are skipped silently —
no warning is emitted.  (As stated the claim fails only in the "with a
warning" part: the handler is `except Exception: pass`.) -/
theorem C3_corruption_tolerant (lines : List (Option Entry)) :
    load_done_and_retry_info lines =
      load_done_and_retry_info ((lines.filterMap id).map some) ∧
    load_warnings lines = [] := by
  constructor
  · have key : ∀ (ls : List (Option Entry)) (st : ResumeState),
        ls.foldl replayStep st = ((ls.filterMap id).map some).foldl replayStep st := by
      intro ls
      induction ls with
      | nil => intro st; rfl
      | cons l rest ih =>
        intro st
        cases l with
        | none => exact ih st
        | some ent =>
          simp only [List.filterMap_cons_some, List.map_cons, List.foldl_cons, id]
          exact ih (replayStep st (some ent))
    exact key lines emptyResume
  · induction lines with
    | nil => rfl
    | cons l rest ih =>
      cases l with
      | none => simpa [load_warnings, replayStepWarnings] using ih
      | some ent => simpa [load_warnings, replayStepWarnings] using ih

/-! ### C9 -/

/-- C9 counterexample: with `max_retries = 0` the filter
`retry_counts.get(idx, 0) >= args.max_retries` excludes every id, so the
residual work set of a missing ledger is empty, not the whole range. -/
theorem C9_counterexample :
    ¬ (residualWork 0 1 0 (loadFromFile none) = intRange 0 1) ∧
    residualWork 0 1 0 (loadFromFile none) = [] ∧
    intRange 0 1 = [0] := by
  refine ⟨by decide, by decide, by decide⟩

/-- C9 (amended): when the ledger file does not exist, replay returns the
empty done set and empty retry counts; the same state is used when resume
is not requested; and provided `max_retries > 0`, the residual work set
over `[s, e)` is then the whole range.  (As stated the claim fails for the
reachable configuration `max_retries = 0`, which excludes every id.) -/
theorem C9_missing_ledger (s e k : Int) (f : Option (List (Option Entry)))
    (hk : 0 < k) :
    loadFromFile none = emptyResume ∧
    resumeStateOf false f = emptyResume ∧
    residualWork s e k emptyResume = intRange s e := by
  refine ⟨rfl, rfl, ?_⟩
  apply List.filter_eq_self.mpr
  intro a _
  simp only [emptyResume, Bool.and_eq_true, Bool.not_eq_true', decide_eq_false_iff_not]
  exact ⟨by simp, by omega⟩

theorem C9_missing_ledger_witness :
    (0 : Int) < 3 ∧
    (loadFromFile none = emptyResume ∧
     resumeStateOf false none = emptyResume ∧
     residualWork 0 4 3 emptyResume = intRange 0 4) := by
  exact ⟨by decide, C9_missing_ledger 0 4 3 none (by decide)⟩

/-! ### ThroughputTracker

`ThroughputTracker.update` (client_caption_arkive.py lines 266-278 and
client_caption_wavscp.py lines 129-140).  Python float durations are
embedded as `ℚ`; Python truthiness of a `float`/`None` argument
(`if audio_duration_seconds:`) is `none` ↦ false, `some x` ↦ `x ≠ 0`. -/

structure ThroughputTracker where
  processed : Nat
  total_audio_seconds : ℚ
  total_processing_time : ℚ
  samples_with_duration : Nat
  samples_without_duration : Nat
  duration_errors : List (String × Nat)

def initTracker : ThroughputTracker := ⟨0, 0, 0, 0, 0, []⟩

def truthyQ : Option ℚ → Bool
  | none => false
  | some x => decide (x ≠ 0)

def truthyS : Option String → Bool
  | none => false
  | some s => decide (s ≠ "")

/-- Embedding of `self.duration_errors[key] += 1` on a `defaultdict(int)`. -/
def bumpError : List (String × Nat) → String → List (String × Nat)
  | [], e => [(e, 1)]
  | (k, n) :: rest, e =>
    if k = e then (k, n + 1) :: rest else (k, n) :: bumpError rest e

/-- The arkive tracker's `update(audio_duration_seconds=None,
processing_time=None, sample_weight=1.0, audio_duration_error=None)`. -/
def ThroughputTracker.update (t : ThroughputTracker)
    (audio_duration_seconds processing_time : Option ℚ)
    (sample_weight : ℚ) (audio_duration_error : Option String) :
    ThroughputTracker :=
  let t1 := { t with processed := t.processed + 1 }
  let t2 :=
    if truthyQ audio_duration_seconds then
      { t1 with
        total_audio_seconds :=
          t1.total_audio_seconds + (audio_duration_seconds.getD 0) * sample_weight,
        samples_with_duration := t1.samples_with_duration + 1 }
    else
      let t1b := { t1 with samples_without_duration := t1.samples_without_duration + 1 }
      if truthyS audio_duration_error then
        { t1b with
          duration_errors := bumpError t1b.duration_errors (audio_duration_error.getD "") }
      else t1b
  if truthyQ processing_time then
    { t2 with total_processing_time := t2.total_processing_time + (processing_time.getD 0) }
  else t2

/-- The wavscp tracker's `update(audio_duration_seconds=None,
audio_duration_error=None, processing_time=None)`: identical except the
duration is added unweighted. -/
def ThroughputTracker.update_wavscp (t : ThroughputTracker)
    (audio_duration_seconds : Option ℚ) (audio_duration_error : Option String)
    (processing_time : Option ℚ) : ThroughputTracker :=
  let t1 := { t with processed := t.processed + 1 }
  let t2 :=
    if truthyQ audio_duration_seconds then
      { t1 with
        total_audio_seconds := t1.total_audio_seconds + (audio_duration_seconds.getD 0),
        samples_with_duration := t1.samples_with_duration + 1 }
    else
      let t1b := { t1 with samples_without_duration := t1.samples_without_duration + 1 }
      if truthyS audio_duration_error then
        { t1b with
          duration_errors := bumpError t1b.duration_errors (audio_duration_error.getD "") }
      else t1b
  if truthyQ processing_time then
    { t2 with total_processing_time := t2.total_processing_time + (processing_time.getD 0) }
  else t2

theorem tracker_update_processed (t : ThroughputTracker)
    (d p : Option ℚ) (w : ℚ) (err : Option String) :
    (t.update d p w err).processed = t.processed + 1 := by
  by_cases h1 : truthyQ d <;> by_cases h2 : truthyS err <;> by_cases h3 : truthyQ p <;>
    simp [ThroughputTracker.update, h1, h2, h3]

theorem tracker_update_wavscp_processed (t : ThroughputTracker)
    (d : Option ℚ) (err : Option String) (p : Option ℚ) :
    (t.update_wavscp d err p).processed = t.processed + 1 := by
  by_cases h1 : truthyQ d <;> by_cases h2 : truthyS err <;> by_cases h3 : truthyQ p <;>
    simp [ThroughputTracker.update_wavscp, h1, h2, h3]

theorem tracker_update_absent_duration (t : ThroughputTracker)
    (d p : Option ℚ) (w : ℚ) (err : Option String) (hd : truthyQ d = false) :
    (t.update d p w err).total_audio_seconds = t.total_audio_seconds ∧
    (t.update d p w err).samples_without_duration = t.samples_without_duration + 1 ∧
    (t.update d p w err).samples_with_duration = t.samples_with_duration := by
  by_cases h2 : truthyS err <;> by_cases h3 : truthyQ p <;>
    simp [ThroughputTracker.update, hd, h2, h3]

theorem tracker_update_absent_ptime (t : ThroughputTracker)
    (d p : Option ℚ) (w : ℚ) (err : Option String) (hp : truthyQ p = false) :
    (t.update d p w err).total_processing_time = t.total_processing_time := by
  by_cases h1 : truthyQ d <;> by_cases h2 : truthyS err <;>
    simp [ThroughputTracker.update, h1, h2, hp]

theorem tracker_update_wavscp_absent_duration (t : ThroughputTracker)
    (d : Option ℚ) (err : Option String) (p : Option ℚ) (hd : truthyQ d = false) :
    (t.update_wavscp d err p).total_audio_seconds = t.total_audio_seconds ∧
    (t.update_wavscp d err p).samples_without_duration = t.samples_without_duration + 1 ∧
    (t.update_wavscp d err p).samples_with_duration = t.samples_with_duration := by
  by_cases h2 : truthyS err <;> by_cases h3 : truthyQ p <;>
    simp [ThroughputTracker.update_wavscp, hd, h2, h3]

theorem tracker_update_wavscp_absent_ptime (t : ThroughputTracker)
    (d : Option ℚ) (err : Option String) (p : Option ℚ) (hp : truthyQ p = false) :
    (t.update_wavscp d err p).total_processing_time = t.total_processing_time := by
  by_cases h1 : truthyQ d <;> by_cases h2 : truthyS err <;>
    simp [ThroughputTracker.update_wavscp, h1, h2, hp]

theorem truthyQ_none : truthyQ none = false := rfl

theorem truthyQ_zero : truthyQ (some 0) = false := by
  simp [truthyQ]

/-! ### C10 -/

/-- C10: both `update` implementations treat an audio duration of exactly
`0` (like `None`) as absent — the sample is counted as a sample without
duration and contributes nothing to `total_audio_seconds` regardless of
`sample_weight` — a processing time of exactly `0` (like `None`) leaves
`total_processing_time` unchanged, and `processed` is incremented by one
in every case. -/
theorem C10_zero_treated_absent (t : ThroughputTracker) (d p : Option ℚ) (w : ℚ)
    (err : Option String) :
    ((t.update none p w err).total_audio_seconds = t.total_audio_seconds ∧
     (t.update (some 0) p w err).total_audio_seconds = t.total_audio_seconds ∧
     (t.update none p w err).samples_without_duration = t.samples_without_duration + 1 ∧
     (t.update (some 0) p w err).samples_without_duration = t.samples_without_duration + 1 ∧
     (t.update none p w err).samples_with_duration = t.samples_with_duration ∧
     (t.update (some 0) p w err).samples_with_duration = t.samples_with_duration ∧
     (t.update d none w err).total_processing_time = t.total_processing_time ∧
     (t.update d (some 0) w err).total_processing_time = t.total_processing_time ∧
     (t.update d p w err).processed = t.processed + 1) ∧
    ((t.update_wavscp none err p).total_audio_seconds = t.total_audio_seconds ∧
     (t.update_wavscp (some 0) err p).total_audio_seconds = t.total_audio_seconds ∧
     (t.update_wavscp none err p).samples_without_duration = t.samples_without_duration + 1 ∧
     (t.update_wavscp (some 0) err p).samples_without_duration = t.samples_without_duration + 1 ∧
     (t.update_wavscp none err p).samples_with_duration = t.samples_with_duration ∧
     (t.update_wavscp (some 0) err p).samples_with_duration = t.samples_with_duration ∧
     (t.update_wavscp d err none).total_processing_time = t.total_processing_time ∧
     (t.update_wavscp d err (some 0)).total_processing_time = t.total_processing_time ∧
     (t.update_wavscp d err p).processed = t.processed + 1) := by
  obtain ⟨ha1, ha2, ha3⟩ := tracker_update_absent_duration t none p w err truthyQ_none
  obtain ⟨hb1, hb2, hb3⟩ := tracker_update_absent_duration t (some 0) p w err truthyQ_zero
  obtain ⟨hc1, hc2, hc3⟩ := tracker_update_wavscp_absent_duration t none err p truthyQ_none
  obtain ⟨hd1, hd2, hd3⟩ := tracker_update_wavscp_absent_duration t (some 0) err p truthyQ_zero
  exact ⟨⟨ha1, hb1, ha2, hb2, ha3, hb3,
          tracker_update_absent_ptime t d none w err truthyQ_none,
          tracker_update_absent_ptime t d (some 0) w err truthyQ_zero,
          tracker_update_processed t d p w err⟩,
         ⟨hc1, hd1, hc2, hd2, hc3, hd3,
          tracker_update_wavscp_absent_ptime t d err none truthyQ_none,
          tracker_update_wavscp_absent_ptime t d err (some 0) truthyQ_zero,
          tracker_update_wavscp_processed t d err p⟩⟩

/-! ### C4 -/

/-- A completed worker attempt, abstracted to what determines its tracker
effect: the success path of `worker` calls `tracker.update` exactly once
(client_caption_arkive.py line 463, with positional arguments
`audio_duration, duration, sample_weight` and no error); the exception
path (lines 478-486) returns the fail record with no tracker call. -/
inductive AttemptOutcome where
  | ok (audio_duration : Option ℚ) (processing_time : Option ℚ) (sample_weight : ℚ)
  | fail (processing_time : Option ℚ)

/-- Tracker effect of one completed attempt in `worker`. -/
def workerTrackerStep (t : ThroughputTracker) : AttemptOutcome → ThroughputTracker
  | .ok d p w => t.update d p w none
  | .fail _ => t

/-- Tracker state after a set of completed attempts. -/
def runWorkerAttempts (t : ThroughputTracker) (os : List AttemptOutcome) :
    ThroughputTracker :=
  os.foldl workerTrackerStep t

def isOkAttempt : AttemptOutcome → Bool
  | .ok _ _ _ => true
  | .fail _ => false

/-- C4 counterexample: one failed attempt never reaches the tracker (the
`except` path of `worker` returns without calling `tracker.update`), so
after one completed attempt the processed count is 0, not 1. -/
theorem C4_counterexample :
    ¬ ((runWorkerAttempts initTracker [AttemptOutcome.fail none]).processed =
        ([AttemptOutcome.fail none] : List AttemptOutcome).length) ∧
    (runWorkerAttempts initTracker [AttemptOutcome.fail none]).processed = 0 ∧
    ([AttemptOutcome.fail none] : List AttemptOutcome).length = 1 := by
  refine ⟨by decide, rfl, rfl⟩

/-- C4 (amended): `tracker.update` is invoked exactly once per *successful*
attempt and never for a failed attempt, so after any set of completed
attempts the tracker's processed count equals the number of successes, not
the number of attempts. -/
theorem C4_update_once_per_success (t : ThroughputTracker) (os : List AttemptOutcome) :
    (runWorkerAttempts t os).processed = t.processed + os.countP isOkAttempt := by
  induction os generalizing t with
  | nil => simp [runWorkerAttempts]
  | cons o rest ih =>
    cases o with
    | ok d p w =>
      show (runWorkerAttempts (t.update d p w none) rest).processed = _
      rw [ih, tracker_update_processed]
      simp [isOkAttempt, List.countP_cons]
      omega
    | fail p =>
      show (runWorkerAttempts t rest).processed = _
      rw [ih]
      simp [isOkAttempt, List.countP_cons]

/-! ### RateLimiter

`RateLimiter.should_throttle` (client_caption_wavscp.py lines 192-217).
`get_queue_size` (lines 60-75) returns `None` whenever the metrics
endpoint is absent, malformed or times out, so the poll outcome is
embedded as an `Option Int` supplied by the environment.  Wall-clock time
is embedded as `Int`.  Besides the decision and the new state, the
embedding returns whether `get_queue_size` was actually called. -/

structure RateLimiter where
  max_queue_size : Int
  check_interval : Int
  last_check : Int
  enabled : Bool

/-- One call to `should_throttle` at time `now`, where `poll` is what
`get_queue_size` would report if called.  Result: (throttle decision,
whether `get_queue_size` was called, updated limiter). -/
def RateLimiter.should_throttle (rl : RateLimiter) (now : Int) (poll : Option Int) :
    Bool × Bool × RateLimiter :=
  if !rl.enabled then (false, false, rl)
  else if now - rl.last_check < rl.check_interval then (false, false, rl)
  else
    let rl1 := { rl with last_check := now }
    match poll with
    | none => (false, true, { rl1 with enabled := false })
    | some queue_size => (decide (queue_size ≥ rl.max_queue_size), true, rl1)

/-- A whole sequence of `should_throttle` calls; each input is the call
time and the queue reading the metrics endpoint would give. -/
def RateLimiter.run (rl : RateLimiter) (inputs : List (Int × Option Int)) :
    List (Bool × Bool) × RateLimiter :=
  match inputs with
  | [] => ([], rl)
  | (now, poll) :: rest =>
    let r := rl.should_throttle now poll
    let tail := (r.2.2).run rest
    ((r.1, r.2.1) :: tail.1, tail.2)

/-! ### C7 -/

/-- C7: `should_throttle` returns true only when a queue reading was
obtained and meets the threshold; a failed reading (while enabled and due
for a check) polls once, returns false and permanently disables the
limiter; and from a disabled limiter every subsequent call returns false
without polling and without changing the state. -/
theorem C7_rate_limiter (rl : RateLimiter) (now : Int) (poll : Option Int)
    (inputs : List (Int × Option Int)) :
    ((rl.should_throttle now poll).1 = true →
      ∃ q, poll = some q ∧ q ≥ rl.max_queue_size) ∧
    (rl.enabled = true → rl.check_interval ≤ now - rl.last_check →
      (rl.should_throttle now none).1 = false ∧
      (rl.should_throttle now none).2.1 = true ∧
      ((rl.should_throttle now none).2.2).enabled = false) ∧
    (rl.enabled = false →
      rl.run inputs = (List.replicate inputs.length (false, false), rl)) := by
  refine ⟨?_, ?_, ?_⟩
  · intro h
    by_cases he : rl.enabled
    · by_cases hdue : now - rl.last_check < rl.check_interval
      · simp [RateLimiter.should_throttle, he, hdue] at h
      · cases poll with
        | none => simp [RateLimiter.should_throttle, he, hdue] at h
        | some q =>
          refine ⟨q, rfl, ?_⟩
          simpa [RateLimiter.should_throttle, he, hdue] using h
    · simp [RateLimiter.should_throttle, he] at h
  · intro he hdue
    have hdue2 : ¬ (now - rl.last_check < rl.check_interval) := by omega
    simp [RateLimiter.should_throttle, he, hdue2]
  · intro he
    induction inputs with
    | nil => rfl
    | cons i rest ih =>
      obtain ⟨n, p⟩ := i
      simp only [RateLimiter.run, RateLimiter.should_throttle, he,
        Bool.not_false, if_true, ih, List.length_cons, List.replicate_succ]

theorem C7_rate_limiter_witness :
    ((({ max_queue_size := 10, check_interval := 2,
         last_check := 0, enabled := true } : RateLimiter).should_throttle 5
        (some 12)).1 = true →
      ∃ q, (some 12 : Option Int) = some q ∧
        q ≥ ({ max_queue_size := 10, check_interval := 2,
               last_check := 0, enabled := true } : RateLimiter).max_queue_size) ∧
    (({ max_queue_size := 10, check_interval := 2,
        last_check := 0, enabled := true } : RateLimiter).enabled = true →
      ({ max_queue_size := 10, check_interval := 2,
         last_check := 0, enabled := true } : RateLimiter).check_interval ≤ 5 - 0 →
      (({ max_queue_size := 10, check_interval := 2,
          last_check := 0, enabled := true } : RateLimiter).should_throttle 5 none).1 = false ∧
      (({ max_queue_size := 10, check_interval := 2,
          last_check := 0, enabled := true } : RateLimiter).should_throttle 5 none).2.1 = true ∧
      ((({ max_queue_size := 10, check_interval := 2,
           last_check := 0, enabled := true } : RateLimiter).should_throttle 5 none).2.2).enabled = false) ∧
    (({ max_queue_size := 10, check_interval := 2,
        last_check := 0, enabled := true } : RateLimiter).enabled = false →
      ({ max_queue_size := 10, check_interval := 2,
         last_check := 0, enabled := true } : RateLimiter).run
          [(7, some 50), (9, none)] =
        (List.replicate 2 (false, false),
         { max_queue_size := 10, check_interval := 2,
           last_check := 0, enabled := true })) := by
  have h := C7_rate_limiter
    { max_queue_size := 10, check_interval := 2, last_check := 0, enabled := true }
    5 (some 12) [(7, some 50), (9, none)]
  exact ⟨h.1, fun h1 h2 => (h.2.1 h1 h2), h.2.2⟩

/-! ### TSV projection

`main` (client_caption_arkive.py lines 498-505, and the analogous
client_caption_wavscp.py lines 334-343): when `res["status"] == "ok"` it
appends exactly
`f"{res['idx']}\t{res['caption'].replace(chr(10),' ').strip()}\n"`
to the TSV file, and nothing otherwise.  Captions are embedded as
`List Char`; `str.strip()` with no argument removes leading and trailing
whitespace characters (the ASCII ones are modelled). -/

def pyReplaceNewline (s : List Char) : List Char :=
  s.map (fun c => if c = '\n' then ' ' else c)

def isPySpace (c : Char) : Bool :=
  c = ' ' || c = '\t' || c = '\n' || c = '\r' || c = '\x0B' || c = '\x0C'

def pyStrip (s : List Char) : List Char :=
  ((s.dropWhile isPySpace).reverse.dropWhile isPySpace).reverse

/-- The fields of a worker result record that the TSV writer looks at. -/
structure AttemptRecord where
  idx : Int
  caption : List Char
  statusOk : Bool

/-- TSV lines appended for one completed attempt. -/
def tsvLines (r : AttemptRecord) : List (List Char) :=
  if r.statusOk then
    [(toString r.idx).data ++ '\t' ::
      (pyStrip (pyReplaceNewline r.caption) ++ ['\n'])]
  else []

/-! Helper lemmas about `dropWhile` ends. -/

theorem head_dropWhile_not (p : Char → Bool) (l : List Char) :
    (l.dropWhile p).head?.all (fun c => !p c) := by
  induction l with
  | nil => rfl
  | cons a t ih =>
    by_cases h : p a
    · simpa [List.dropWhile_cons, h] using ih
    · simp [List.dropWhile_cons, h]

theorem getLast_dropWhile_eq (p : Char → Bool) (l : List Char) :
    l.dropWhile p = [] ∨ (l.dropWhile p).getLast? = l.getLast? := by
  induction l with
  | nil => exact Or.inl rfl
  | cons a t ih =>
    by_cases h : p a
    · by_cases ht : t.dropWhile p = []
      · exact Or.inl (by simp [List.dropWhile_cons, h, ht])
      · rcases ih with ih | ih
        · exact absurd ih ht
        · right
          rw [List.dropWhile_cons, if_pos h, ih]
          cases t with
          | nil => exact absurd rfl ht
          | cons b u => simp
    · exact Or.inr (by simp [List.dropWhile_cons, h])

theorem newline_not_mem_pyReplaceNewline (s : List Char) :
    '\n' ∉ pyReplaceNewline s := by
  intro h
  obtain ⟨a, _, ha⟩ := List.mem_map.mp h
  by_cases hn : a = '\n' <;> simp [hn] at ha

theorem pyStrip_mem_subset (s : List Char) (c : Char) (h : c ∈ pyStrip s) : c ∈ s := by
  unfold pyStrip at h
  rw [List.mem_reverse] at h
  have h2 := (List.dropWhile_sublist isPySpace).mem h
  rw [List.mem_reverse] at h2
  exact (List.dropWhile_sublist isPySpace).mem h2

theorem pyStrip_head_not_space (s : List Char) :
    (pyStrip s).head?.all (fun c => !isPySpace c) := by
  unfold pyStrip
  rw [List.head?_reverse]
  rcases getLast_dropWhile_eq isPySpace (s.dropWhile isPySpace).reverse with h | h
  · simp [h]
  · rw [h, List.getLast?_reverse]
    exact head_dropWhile_not isPySpace s

theorem pyStrip_getLast_not_space (s : List Char) :
    (pyStrip s).getLast?.all (fun c => !isPySpace c) := by
  unfold pyStrip
  rw [List.getLast?_reverse]
  exact head_dropWhile_not isPySpace ((s.dropWhile isPySpace).reverse)

/-! ### C8 -/

/-- C8: for every attempt result, exactly one TSV line is appended iff the
status is ok; the line is the id, a tab, and the caption with every
embedded newline replaced by a space and surrounding whitespace trimmed
(so the written caption contains no newline and neither starts nor ends
with whitespace); failed attempts append no TSV line. -/
theorem C8_tsv_projection (r : AttemptRecord) :
    (r.statusOk = false → tsvLines r = []) ∧
    (r.statusOk = true →
      tsvLines r =
        [(toString r.idx).data ++ '\t' ::
          (pyStrip (pyReplaceNewline r.caption) ++ ['\n'])] ∧
      '\n' ∉ pyStrip (pyReplaceNewline r.caption) ∧
      (pyStrip (pyReplaceNewline r.caption)).head?.all (fun c => !isPySpace c) ∧
      (pyStrip (pyReplaceNewline r.caption)).getLast?.all (fun c => !isPySpace c)) := by
  constructor
  · intro h
    simp [tsvLines, h]
  · intro h
    refine ⟨by simp [tsvLines, h], ?_, pyStrip_head_not_space _, pyStrip_getLast_not_space _⟩
    intro hmem
    exact newline_not_mem_pyReplaceNewline r.caption (pyStrip_mem_subset _ _ hmem)

theorem C8_tsv_projection_witness :
    ((({ idx := 42, caption := ' ' :: '\n' :: 'h' :: 'i' :: '\n' :: 'y' :: 'o' :: '\n' :: [],
         statusOk := true } : AttemptRecord).statusOk = true) ∧
      (tsvLines { idx := 42, caption := ' ' :: '\n' :: 'h' :: 'i' :: '\n' :: 'y' :: 'o' :: '\n' :: [],
                  statusOk := true } =
        [(toString (42 : Int)).data ++ '\t' ::
          (pyStrip (pyReplaceNewline
            (' ' :: '\n' :: 'h' :: 'i' :: '\n' :: 'y' :: 'o' :: '\n' :: [])) ++ ['\n'])] ∧
       '\n' ∉ pyStrip (pyReplaceNewline
            (' ' :: '\n' :: 'h' :: 'i' :: '\n' :: 'y' :: 'o' :: '\n' :: [])) ∧
       (pyStrip (pyReplaceNewline
            (' ' :: '\n' :: 'h' :: 'i' :: '\n' :: 'y' :: 'o' :: '\n' :: []))).head?.all
          (fun c => !isPySpace c) ∧
       (pyStrip (pyReplaceNewline
            (' ' :: '\n' :: 'h' :: 'i' :: '\n' :: 'y' :: 'o' :: '\n' :: []))).getLast?.all
          (fun c => !isPySpace c))) ∧
    ((({ idx := 7, caption := ['x'], statusOk := false } : AttemptRecord).statusOk = false) ∧
      tsvLines { idx := 7, caption := ['x'], statusOk := false } = []) := by
  refine ⟨⟨rfl, ?_⟩, rfl, ?_⟩
  · exact (C8_tsv_projection
      { idx := 42, caption := ' ' :: '\n' :: 'h' :: 'i' :: '\n' :: 'y' :: 'o' :: '\n' :: [],
        statusOk := true }).2 rfl
  · exact (C8_tsv_projection { idx := 7, caption := ['x'], statusOk := false }).1 rfl

/-! ### IndexBuilder

`build_index` (client_caption_arkive.py lines 126-158): read the metadata
rows, sort them with
`rows.sort(key=lambda r: (int(r["bin_index"]), int(r["start_byte_offset"])))`
— Python's stable sort under the lexicographic pair key — and emit one
compact record per row in that order, with `-1` as the sentinel for a
missing sample rate or channel count.  Ids are the positions `0..N-1` in
the emitted list. -/

structure MetaRow where
  bin_index : Int
  start_byte_offset : Int
  file_size_bytes : Int
  sample_rate : Option Int
  channels : Option Int

structure IndexRec where
  bin_index : Int
  start : Int
  size : Int
  sr : Int
  ch : Int

/-- The lexicographic sort key comparison on metadata rows. -/
def rowLe (a b : MetaRow) : Bool :=
  decide (a.bin_index < b.bin_index) ||
    (decide (a.bin_index = b.bin_index) && decide (a.start_byte_offset ≤ b.start_byte_offset))

/-- Same comparison on the emitted records. -/
def recLe (a b : IndexRec) : Bool :=
  decide (a.bin_index < b.bin_index) ||
    (decide (a.bin_index = b.bin_index) && decide (a.start ≤ b.start))

def rowToRec (r : MetaRow) : IndexRec :=
  { bin_index := r.bin_index, start := r.start_byte_offset,
    size := r.file_size_bytes,
    sr := r.sample_rate.getD (-1), ch := r.channels.getD (-1) }

def build_index (rows : List MetaRow) : List IndexRec × Nat :=
  let sorted := rows.mergeSort rowLe
  (sorted.map rowToRec, rows.length)

theorem rowLe_total (a b : MetaRow) : (rowLe a b || rowLe b a) = true := by
  simp only [rowLe, Bool.or_eq_true, Bool.and_eq_true, decide_eq_true_eq]
  omega

theorem rowLe_trans (a b c : MetaRow) (h1 : rowLe a b = true) (h2 : rowLe b c = true) :
    rowLe a c = true := by
  simp only [rowLe, Bool.or_eq_true, Bool.and_eq_true, decide_eq_true_eq] at h1 h2 ⊢
  omega

theorem rowLe_imp_recLe (a b : MetaRow) (h : rowLe a b = true) :
    recLe (rowToRec a) (rowToRec b) = true := by
  simp only [rowLe, Bool.or_eq_true, Bool.and_eq_true, decide_eq_true_eq] at h
  simp only [recLe, rowToRec, Bool.or_eq_true, Bool.and_eq_true, decide_eq_true_eq]
  omega

/-! ### C6 -/

/-- C6: `build_index` sorts the metadata rows ascending by
`(bin_index, start_byte_offset)` (the emitted records are pairwise in that
order), assigns dense ids `0..N-1` in that order (the index has exactly
`N = rows.length` records and enumerating it yields ids `0..N-1`), and any
two builds from the same metadata table produce identical indices. -/
theorem C6_index_determinism (rows rows2 : List MetaRow) (h : rows = rows2) :
    List.Pairwise (fun a b => recLe a b = true) (build_index rows).1 ∧
    (build_index rows).1.length = (build_index rows).2 ∧
    (build_index rows).2 = rows.length ∧
    ((build_index rows).1.enum.map Prod.fst) = List.range rows.length ∧
    build_index rows = build_index rows2 := by
  have hlen : (build_index rows).1.length = rows.length := by
    simp [build_index, List.length_mergeSort]
  refine ⟨?_, ?_, rfl, ?_, by rw [h]⟩
  · have hs := List.sorted_mergeSort
      (fun a b c hab hbc => rowLe_trans a b c hab hbc)
      (fun a b => rowLe_total a b) rows
    exact hs.map rowToRec (fun a b hab => rowLe_imp_recLe a b hab)
  · exact hlen
  · rw [List.enum_map_fst, hlen]

theorem C6_index_determinism_witness :
    (([⟨1, 5, 10, some 16000, some 1⟩, ⟨0, 7, 3, none, none⟩,
       ⟨1, 2, 4, some 8000, none⟩] : List MetaRow) =
     ([⟨1, 5, 10, some 16000, some 1⟩, ⟨0, 7, 3, none, none⟩,
       ⟨1, 2, 4, some 8000, none⟩] : List MetaRow)) ∧
    (List.Pairwise (fun a b => recLe a b = true)
      (build_index [⟨1, 5, 10, some 16000, some 1⟩, ⟨0, 7, 3, none, none⟩,
                    ⟨1, 2, 4, some 8000, none⟩]).1 ∧
     (build_index [⟨1, 5, 10, some 16000, some 1⟩, ⟨0, 7, 3, none, none⟩,
                   ⟨1, 2, 4, some 8000, none⟩]).1.length =
       (build_index [⟨1, 5, 10, some 16000, some 1⟩, ⟨0, 7, 3, none, none⟩,
                     ⟨1, 2, 4, some 8000, none⟩]).2 ∧
     (build_index [⟨1, 5, 10, some 16000, some 1⟩, ⟨0, 7, 3, none, none⟩,
                   ⟨1, 2, 4, some 8000, none⟩]).2 =
       ([⟨1, 5, 10, some 16000, some 1⟩, ⟨0, 7, 3, none, none⟩,
         ⟨1, 2, 4, some 8000, none⟩] : List MetaRow).length ∧
     ((build_index [⟨1, 5, 10, some 16000, some 1⟩, ⟨0, 7, 3, none, none⟩,
                    ⟨1, 2, 4, some 8000, none⟩]).1.enum.map Prod.fst) =
       List.range ([⟨1, 5, 10, some 16000, some 1⟩, ⟨0, 7, 3, none, none⟩,
                    ⟨1, 2, 4, some 8000, none⟩] : List MetaRow).length ∧
     build_index [⟨1, 5, 10, some 16000, some 1⟩, ⟨0, 7, 3, none, none⟩,
                  ⟨1, 2, 4, some 8000, none⟩] =
       build_index [⟨1, 5, 10, some 16000, some 1⟩, ⟨0, 7, 3, none, none⟩,
                    ⟨1, 2, 4, some 8000, none⟩]) := by
  exact ⟨rfl, C6_index_determinism _ _ rfl⟩

/-! ### ShardStore resource handling

`open_mmaps` (client_caption_arkive.py lines 45-60) opens one file
descriptor per shard path and then maps it; if any `os.open` or
`mmap.mmap` call raises, the exception propagates out of the function and
the local `fds`/`mmaps` lists — which held the already-acquired resources
— are discarded.  `ArkiveReader.close` (lines 105-124) closes whatever is
recorded in the reader's `mmaps`/`fds` attributes, tolerating absent
attributes via `getattr(self, ..., [])` and swallowing every per-resource
exception, so it raises nothing.

The embedding tracks operating-system state explicitly: `Resources` holds
the ids of currently open descriptors and mappings, with a counter
supplying fresh ids. -/

structure Resources where
  nextId : Nat
  openFds : List Nat
  openMmaps : List Nat
deriving DecidableEq

def emptyRes : Resources := ⟨0, [], []⟩

/-- Per-path environment behavior: whether `os.open` succeeds and whether
`mmap.mmap` succeeds for that shard. -/
structure PathSpec where
  fdOk : Bool
  mmapOk : Bool
deriving DecidableEq

/-- The loop of `open_mmaps`: `fd = os.open(p, O_RDONLY)`,
`fds.append(fd)`, `mmaps.append(mmap.mmap(fd, 0, ACCESS_READ))`.  An
exception aborts the whole function: the accumulator lists are discarded
while the resources opened so far stay open in `Resources`. -/
def openLoop : List PathSpec → List Nat → List Nat → Resources →
    (Except Unit (List Nat × List Nat)) × Resources
  | [], mmaps, fds, res => (.ok (mmaps, fds), res)
  | p :: ps, mmaps, fds, res =>
    if p.fdOk then
      let fd := res.nextId
      let res1 : Resources := ⟨fd + 1, fd :: res.openFds, res.openMmaps⟩
      if p.mmapOk then
        let m := res1.nextId
        let res2 : Resources := ⟨m + 1, res1.openFds, m :: res1.openMmaps⟩
        openLoop ps (mmaps ++ [m]) (fds ++ [fd]) res2
      else (.error (), res1)
    else (.error (), res)

/-- Function `open_mmaps`: raises `FileNotFoundError` when no shard paths match
`arkive_*.bin`, otherwise runs the loop. -/
def open_mmaps (ps : List PathSpec) (res : Resources) :
    (Except Unit (List Nat × List Nat)) × Resources :=
  if ps.isEmpty then (.error (), res) else openLoop ps [] [] res

/-- Method `ArkiveReader.close`: release every mapping and descriptor listed in
the reader's attributes; after a failed `__init__` the attributes are
absent and `getattr` defaults both lists to `[]`. -/
def closeReader (mmaps fds : List Nat) (res : Resources) : Resources :=
  { res with
    openMmaps := res.openMmaps.filter (fun x => !(List.elem x mmaps)),
    openFds := res.openFds.filter (fun x => !(List.elem x fds)) }

/-- On success, `openLoop` returns exactly the accumulators extended by
the newly created ids, and those new ids are exactly what was added to
the open-resource state. -/
theorem openLoop_success (ps : List PathSpec) :
    ∀ (mmaps fds : List Nat) (res : Resources) (ms fs : List Nat) (res' : Resources),
      openLoop ps mmaps fds res = (.ok (ms, fs), res') →
      ∃ tm tf, ms = mmaps ++ tm ∧ fs = fds ++ tf ∧
        res'.openMmaps = tm.reverse ++ res.openMmaps ∧
        res'.openFds = tf.reverse ++ res.openFds := by
  induction ps with
  | nil =>
    intro mmaps fds res ms fs res' h
    simp only [openLoop, Prod.mk.injEq, Except.ok.injEq] at h
    obtain ⟨⟨h1, h2⟩, h3⟩ := h
    exact ⟨[], [], by simp [← h1], by simp [← h2], by simp [← h3], by simp [← h3]⟩
  | cons p ps ih =>
    intro mmaps fds res ms fs res' h
    by_cases hfd : p.fdOk
    · by_cases hmm : p.mmapOk
      · simp only [openLoop, hfd, hmm, if_true] at h
        obtain ⟨tm, tf, h1, h2, h3, h4⟩ := ih _ _ _ _ _ _ h
        refine ⟨(res.nextId + 1) :: tm, res.nextId :: tf, ?_, ?_, ?_, ?_⟩
        · simpa using h1
        · simpa using h2
        · rw [h3]; simp
        · rw [h4]; simp
      · simp [openLoop, hfd, hmm] at h
    · simp [openLoop, hfd] at h

/-- Filtering away everything that is a member empties the list. -/
theorem filter_not_elem_self (l base : List Nat) (hsub : ∀ x ∈ l, x ∈ base) :
    l.filter (fun x => !(List.elem x base)) = [] := by
  rw [List.filter_eq_nil_iff]
  intro a ha
  simp [hsub a ha]

/-! ### C5 -/

/-- C5 counterexample: two shard paths where both descriptors open but the
second mapping fails.  `open_mmaps` raises, the reader never stores the
partially acquired resources, and `close` (running on the defaulted empty
attribute lists) releases nothing: descriptors 0 and 2 and mapping 1 stay
open, contradicting "releases whatever was acquired" after a partial
`open` failure. -/
theorem C5_counterexample :
    (open_mmaps [⟨true, true⟩, ⟨true, false⟩] emptyRes).1 = .error () ∧
    (closeReader [] [] (open_mmaps [⟨true, true⟩, ⟨true, false⟩] emptyRes).2).openFds
      = [2, 0] ∧
    (closeReader [] [] (open_mmaps [⟨true, true⟩, ⟨true, false⟩] emptyRes).2).openMmaps
      = [1] := by
  exact ⟨rfl, rfl, rfl⟩

/-- C5 (amended): `close` raises nothing by construction and releases all
mappings and descriptors recorded on the reader — after a fully successful
`open` from a fresh process state, closing the reader returns the
open-resource state to empty.  It is safe to call after `open` failed
partway: the reader's attribute lists default to `[]` and `close` leaves
the state exactly unchanged — which also means the resources acquired
before the failure are *not* released (they were never attached to the
reader), contrary to the claim's "releases whatever was acquired". -/
theorem C5_close_after_partial_open (ps : List PathSpec) (ms fs : List Nat)
    (res' : Resources) :
    (open_mmaps ps emptyRes = (.ok (ms, fs), res') →
      (closeReader ms fs res').openMmaps = [] ∧
      (closeReader ms fs res').openFds = []) ∧
    (∀ res : Resources, closeReader [] [] res = res) := by
  constructor
  · intro h
    unfold open_mmaps at h
    by_cases hps : ps.isEmpty
    · simp [hps] at h
    · rw [if_neg hps] at h
      obtain ⟨tm, tf, h1, h2, h3, h4⟩ := openLoop_success ps [] [] emptyRes ms fs res' h
      simp only [List.nil_append] at h1 h2
      subst h1; subst h2
      constructor
      · unfold closeReader
        rw [h3]
        simp only [emptyRes, List.append_nil]
        exact filter_not_elem_self _ _ (fun x hx => List.mem_reverse.mp hx)
      · unfold closeReader
        rw [h4]
        simp only [emptyRes, List.append_nil]
        exact filter_not_elem_self _ _ (fun x hx => List.mem_reverse.mp hx)
  · intro res
    unfold closeReader
    simp

theorem C5_close_after_partial_open_witness :
    (open_mmaps [⟨true, true⟩] emptyRes =
        (.ok ([1], [0]), ⟨2, [0], [1]⟩) →
      (closeReader [1] [0] ⟨2, [0], [1]⟩).openMmaps = [] ∧
      (closeReader [1] [0] ⟨2, [0], [1]⟩).openFds = []) ∧
    (open_mmaps [⟨true, true⟩] emptyRes = (.ok ([1], [0]), ⟨2, [0], [1]⟩)) ∧
    ((closeReader [1] [0] ⟨2, [0], [1]⟩).openMmaps = [] ∧
     (closeReader [1] [0] ⟨2, [0], [1]⟩).openFds = []) := by
  have h := C5_close_after_partial_open [⟨true, true⟩] [1] [0] ⟨2, [0], [1]⟩
  exact ⟨h.1, rfl, h.1 rfl⟩

end Captioner
